import Mathlib

/-!
Verification development for the content-addressed storage core of
`allada/rust_cas` (a remote build cache).  The Rust sources under
`src/cas/store/filesystem_store.rs`, `src/util/fs.rs` and
`src/cas/grpc_service/ac_server.rs` are shallowly embedded below as pure
Lean functions over an explicit filesystem state.  Components whose code
is not part of the sources (the evicting map, the byte channel,
`DigestInfo::try_new`, the resource-name parser and the store trait's
`update_oneshot`) are modelled from the specification and are marked as
such in their doc comments.

Bytes are modelled as natural numbers, machine integers as `Nat`/`Int`
with explicit wrapping where the source wraps (`as i32` casts).
-/

set_option autoImplicit false

namespace RustCas

/-- A byte string: the contents of a file, a chunk on the byte channel. -/
abbrev Bytes := List Nat

/-- Error codes used by the `error` crate (subset relevant to the claims). -/
inductive Code where
  | notFound
  | invalidArgument
  | internal
  | aborted
deriving DecidableEq, Repr

/-- An error: a code plus a human-readable message chain (`err_tip` context). -/
structure Error where
  code : Code
  msg : String
deriving DecidableEq, Repr

/-- Merging of a primary error with a cleanup error (`Error::merge` in the
`error` crate): the primary error's code wins, messages are chained. -/
def Error.merge (e1 e2 : Error) : Error :=
  ⟨e1.code, e1.msg ++ " : " ++ e2.msg⟩

/-- The digest identifying a blob: `(hash, size_bytes)` as in `common::DigestInfo`. -/
structure DigestInfo where
  hash : String
  size_bytes : Int
deriving DecidableEq, Repr

/-- The hex string of the digest (`DigestInfo::str`). -/
def DigestInfo.str (d : DigestInfo) : String := d.hash

/-- Is this character a lowercase hex digit? -/
def isLowerHexChar (c : Char) : Bool :=
  c.isDigit || (97 ≤ c.toNat && c.toNat ≤ 102)

/-- Split a character list at every occurrence of the separator (the
splitting primitive behind `split_once` and the `/`-segmentation of
resource names). -/
def splitChars (sep : Char) : List Char → List (List Char)
  | [] => [[]]
  | c :: cs =>
    if c = sep then [] :: splitChars sep cs
    else
      match splitChars sep cs with
      | [] => [[c]]
      | p :: ps => (c :: p) :: ps

/-- Split a string at every occurrence of the separator character. -/
def splitString (sep : Char) (s : String) : List String :=
  (splitChars sep s.data).map String.mk

/-- Join strings with a separator (the inverse of `splitString`). -/
def joinWith (sep : String) : List String → String
  | [] => ""
  | [x] => x
  | x :: y :: xs => x ++ sep ++ joinWith sep (y :: xs)

/-- Modelled from the spec: `DigestInfo::try_new` (crate `common`, not in the
sources).  Per §3 the hash is a lowercase-hex string of a fixed-width
(32-byte) digest and `size_bytes` is a non-negative integer `≤ 2^63 − 1`. -/
def DigestInfo.try_new (hash : String) (size : Int) : Except Error DigestInfo :=
  if hash.length == 64 && hash.data.all isLowerHexChar
      && decide (0 ≤ size) && decide (size ≤ 2 ^ 63 - 1) then
    .ok ⟨hash, size⟩
  else
    .error ⟨.invalidArgument, "invalid digest"⟩

/-! ## Filesystem state

The on-disk state visible to the store: a finite map from absolute path to
file contents, as an association list. -/

/-- The filesystem: an association list from path to contents. -/
abbrev Fs := List (String × Bytes)

/-- Contents of the file at path `p`, if it exists. -/
def fsGet : Fs → String → Option Bytes
  | [], _ => none
  | (q, d) :: rest, p => if q = p then some d else fsGet rest p

/-- Create or replace the file at path `p` with contents `c`. -/
def fsSet : Fs → String → Bytes → Fs
  | [], p, c => [(p, c)]
  | (q, d) :: rest, p, c => if q = p then (p, c) :: rest else (q, d) :: fsSet rest p c

/-- Delete the file at path `p` (no-op if absent). -/
def fsRemove : Fs → String → Fs
  | [], _ => []
  | (q, d) :: rest, p => if q = p then fsRemove rest p else (q, d) :: fsRemove rest p

/-- Append `data` to the file at `p` (the file-write step of the upload loop). -/
def fsAppend (fs : Fs) (p : String) (data : Bytes) : Fs :=
  fsSet fs p ((fsGet fs p).getD [] ++ data)

/-- Embeds `fs::rename`: fails when the source path does not exist, else moves
the contents to the destination path (overwriting it). -/
def fsRename (fs : Fs) (src dst : String) : Except Error Fs :=
  match fsGet fs src with
  | none => .error ⟨.notFound, "rename: no such file"⟩
  | some c => .ok (fsSet (fsRemove fs src) dst c)

/-- Embeds `fs::remove_file`: fails when the path does not exist. -/
def fsRemoveFile (fs : Fs) (p : String) : Except Error Fs :=
  match fsGet fs p with
  | none => .error ⟨.notFound, "remove_file: no such file"⟩
  | some _ => .ok (fsRemove fs p)

theorem fsGet_fsSet_self (fs : Fs) (p : String) (c : Bytes) :
    fsGet (fsSet fs p c) p = some c := by
  induction fs with
  | nil => simp [fsSet, fsGet]
  | cons e rest ih =>
    obtain ⟨q, d⟩ := e
    by_cases h : q = p <;> simp [fsSet, fsGet, h, ih]

theorem fsGet_fsSet_ne (fs : Fs) (p q : String) (c : Bytes) (h : q ≠ p) :
    fsGet (fsSet fs p c) q = fsGet fs q := by
  induction fs with
  | nil => simp [fsSet, fsGet, Ne.symm h]
  | cons e rest ih =>
    obtain ⟨r, d⟩ := e
    by_cases hr : r = p
    · subst hr
      simp [fsSet, fsGet, Ne.symm h]
    · by_cases hq : r = q
      · subst hq
        simp [fsSet, fsGet, hr, h, ih]
      · simp [fsSet, fsGet, hr, hq, ih]

theorem fsSet_fsSet (fs : Fs) (p : String) (c c' : Bytes) :
    fsSet (fsSet fs p c) p c' = fsSet fs p c' := by
  induction fs with
  | nil => simp [fsSet]
  | cons e rest ih =>
    obtain ⟨q, d⟩ := e
    by_cases h : q = p <;> simp [fsSet, h, ih]

theorem fsGet_fsRemove_self (fs : Fs) (p : String) :
    fsGet (fsRemove fs p) p = none := by
  induction fs with
  | nil => simp [fsRemove, fsGet]
  | cons e rest ih =>
    obtain ⟨q, d⟩ := e
    by_cases h : q = p <;> simp [fsRemove, fsGet, h, ih]

theorem fsGet_fsRemove_ne (fs : Fs) (p q : String) (h : q ≠ p) :
    fsGet (fsRemove fs p) q = fsGet fs q := by
  induction fs with
  | nil => simp [fsRemove]
  | cons e rest ih =>
    obtain ⟨r, d⟩ := e
    by_cases hr : r = p
    · subst hr
      simp [fsRemove, fsGet, Ne.symm h, ih]
    · by_cases hq : r = q
      · subst hq
        simp [fsRemove, fsGet, hr, h, ih]
      · simp [fsRemove, fsGet, hr, hq, ih]

/-! ## Evicting Map

Modelled from the spec (§4.4); the `evicting_map` crate is not in the
sources.  Entries are kept in LRU order, head = least recently used,
tail = most recently used.  Each entry carries an `age` in seconds
relative to the anchor instant captured at map creation (the value passed
to `insert_with_time`; `0` for ordinary inserts and refreshed accesses). -/

/-- Eviction limits (`config::backends::EvictionPolicy`); `0` means
unlimited / no bound for each of the three limits. -/
structure EvictionPolicy where
  max_count : Nat
  max_bytes : Nat
  max_seconds : Nat
  evict_bytes : Nat
deriving DecidableEq, Repr

/-- The policy obtained from `EvictionPolicy::default()` when the store
config has no eviction policy: every limit unlimited. -/
def EvictionPolicy.defaultPolicy : EvictionPolicy := ⟨0, 0, 0, 0⟩

/-- One entry of the evicting map: key, value, and age in seconds relative
to the anchor instant (larger = older). -/
structure EMEntry (V : Type) where
  key : DigestInfo
  value : V
  age : Int
deriving DecidableEq, Repr

/-- Modelled from the spec: the evicting map's state, an LRU-ordered list
of entries together with the configured policy. -/
structure EvictingMap (V : Type) where
  policy : EvictionPolicy
  entries : List (EMEntry V)
deriving DecidableEq, Repr

namespace EvictingMap

variable {V : Type}

/-- Total number of bytes indexed by the given entries. -/
def sumLen (len : V → Nat) (es : List (EMEntry V)) : Nat :=
  (es.map fun e => len e.value).sum

/-- Do the entries respect all three configured limits?  (Spec §4.4:
a `0` limit is unlimited / no bound.) -/
def limitsOk (len : V → Nat) (p : EvictionPolicy) (es : List (EMEntry V)) : Bool :=
  (p.max_count == 0 || decide (es.length ≤ p.max_count))
    && (p.max_bytes == 0 || decide (sumLen len es ≤ p.max_bytes))
    && (p.max_seconds == 0 || es.all fun e => decide (e.age ≤ (p.max_seconds : Int)))

/-- Evict from the least-recently-used end until all limits hold; returns
the kept entries and the evicted values (their `unref` is the caller's
responsibility, matching the file-unlink side effect). -/
def evictLoop (len : V → Nat) (p : EvictionPolicy) :
    List (EMEntry V) → List (EMEntry V) × List V
  | [] => ([], [])
  | e :: rest =>
    if limitsOk len p (e :: rest) then (e :: rest, [])
    else
      let r := evictLoop len p rest
      (r.1, e.value :: r.2)

/-- The entry stored under key `k`, if any. -/
def findEntry (m : EvictingMap V) (k : DigestInfo) : Option (EMEntry V) :=
  m.entries.find? fun e => e.key == k

/-- Drop every entry with key `k`. -/
def removeKey (es : List (EMEntry V)) (k : DigestInfo) : List (EMEntry V) :=
  es.filter fun e => !(e.key == k)

/-- Modelled from the spec: `EvictingMap::size_for_key` — bumps `k` to the
most-recent position if present and returns its stored length. -/
def size_for_key (len : V → Nat) (m : EvictingMap V) (k : DigestInfo) :
    Option Nat × EvictingMap V :=
  match findEntry m k with
  | none => (none, m)
  | some e =>
    (some (len e.value), ⟨m.policy, removeKey m.entries k ++ [⟨e.key, e.value, 0⟩]⟩)

/-- Modelled from the spec: `EvictingMap::get` — as `size_for_key`, plus the
entry's `touch` hook fires off the critical path (a log-only atime update
for file entries, not modelled). -/
def get (len : V → Nat) (m : EvictingMap V) (k : DigestInfo) :
    Option V × EvictingMap V :=
  match findEntry m k with
  | none => (none, m)
  | some e =>
    (some e.value, ⟨m.policy, removeKey m.entries k ++ [⟨e.key, e.value, 0⟩]⟩)

/-- Modelled from the spec: `EvictingMap::insert_with_time` — inserts with
the given age in seconds relative to the anchor, then evicts from the LRU
end until the limits hold.  Returns (displaced prior value for the same
key, values evicted by the limits, new map). -/
def insert_with_time (len : V → Nat) (m : EvictingMap V) (k : DigestInfo)
    (v : V) (age_seconds : Int) : Option V × List V × EvictingMap V :=
  let old := findEntry m k
  let r := evictLoop len m.policy (removeKey m.entries k ++ [⟨k, v, age_seconds⟩])
  (old.map (·.value), r.2, ⟨m.policy, r.1⟩)

/-- Modelled from the spec: `EvictingMap::insert` — as `insert_with_time`
with age `0` (inserted "now"). -/
def insert (len : V → Nat) (m : EvictingMap V) (k : DigestInfo) (v : V) :
    Option V × List V × EvictingMap V :=
  insert_with_time len m k v 0

end EvictingMap

/-! ## FilesystemStore (src/cas/store/filesystem_store.rs) -/

/-- `FileEntry`: the value stored in the evicting map for each on-disk blob.
The eviction callback of the source is an opaque side effect and is not
modelled. -/
structure FileEntry where
  digest : DigestInfo
  file_size : Nat
  temp_path : String
  content_path : String
deriving DecidableEq, Repr

/-- `LenEntry::len` for `FileEntry`: the measured on-disk size. -/
def FileEntry.len (e : FileEntry) : Nat := e.file_size

/-- Embeds `to_full_path`: `format!("{}/{}", folder, name)`. -/
def to_full_path (folder name : String) : String := folder ++ "/" ++ name

/-- Embeds `to_full_path_from_digest`:
`format!("{}/{}-{}", folder, digest.str(), digest.size_bytes)`. -/
def to_full_path_from_digest (folder : String) (digest : DigestInfo) : String :=
  folder ++ "/" ++ digest.str ++ "-" ++ toString digest.size_bytes

/-- The largest `usize`/`u64` value on the 64-bit targets the store runs on. -/
def USIZE_MAX : Nat := 2 ^ 64 - 1

/-- Outcome of the reader once its queued chunks are exhausted: a clean EOF
or a channel error (e.g. the writer half was dropped). -/
inductive ReaderOutcome where
  | eof
  | err
deriving DecidableEq, Repr

/-- Modelled from the spec: the consumer half of the byte channel
(`buf_channel::DropCloserReadHalf`, not in the sources).  `recv` yields the
queued chunks in order and then either an empty chunk (EOF) or an error. -/
structure DropCloserReadHalf where
  chunks : List Bytes
  outcome : ReaderOutcome
deriving DecidableEq, Repr

/-- The `reader.recv()` / `write_all_buf` loop of
`FilesystemStore::update_file`: appends each received chunk to the temp
file, accumulating `file_size`; a zero-length chunk is EOF. -/
def recvLoop (fs : Fs) (temp_loc : String) :
    List Bytes → ReaderOutcome → Nat → Fs × Except Error Nat
  | [], .eof, file_size => (fs, .ok file_size)
  | [], .err, _ =>
    (fs, .error ⟨.internal, "Failed to receive data in filesystem store"⟩)
  | data :: rest, outcome, file_size =>
    if data.length == 0 then (fs, .ok file_size)
    else recvLoop (fsAppend fs temp_loc data) temp_loc rest outcome
      (file_size + data.length)

/-- The per-store state of `FilesystemStore` (the filesystem itself is
passed separately). -/
structure FilesystemStore where
  temp_path : String
  content_path : String
  evicting_map : EvictingMap FileEntry
  read_buffer_size : Nat
deriving DecidableEq, Repr

/-- Embeds `FilesystemStore::update_file`: drain the reader into the temp
file, `sync_all` (a no-op on the pure filesystem model), rename into
`content_path`, then insert the new `FileEntry` into the evicting map.
Values evicted by the map have their content files unlinked (`unref`);
the displaced prior entry for the same digest is returned by `insert`
and only its callback fires (an unmodelled side effect). -/
def FilesystemStore.update_file (store : FilesystemStore) (fs : Fs)
    (temp_loc : String) (digest : DigestInfo) (reader : DropCloserReadHalf) :
    Fs × Except Error FilesystemStore :=
  match recvLoop fs temp_loc reader.chunks reader.outcome 0 with
  | (fs1, .error e) => (fs1, .error e)
  | (fs1, .ok file_size) =>
    let entry : FileEntry :=
      ⟨digest, file_size, store.temp_path, store.content_path⟩
    let final_loc := to_full_path_from_digest store.content_path digest
    match fsRename fs1 temp_loc final_loc with
    | .error e => (fs1, .error e)
    | .ok fs2 =>
      let r := EvictingMap.insert FileEntry.len store.evicting_map digest entry
      let fs3 := r.2.1.foldl
        (fun f ev => fsRemove f (to_full_path_from_digest ev.content_path ev.digest)) fs2
      (fs3, .ok ⟨store.temp_path, store.content_path, r.2.2, store.read_buffer_size⟩)

/-- Hex rendering of the temp-file counter (`format!("{:x}", num)`). -/
def natToHex (n : Nat) : String := String.mk (Nat.toDigits 16 n)

/-- Embeds `StoreTrait::update` for `FilesystemStore`: create a fresh temp
file named after the process-wide counter value `temp_name_num`, run
`update_file`, and on failure delete the temp file, merging a failed
deletion into the primary error. -/
def FilesystemStore.update (store : FilesystemStore) (fs : Fs)
    (digest : DigestInfo) (reader : DropCloserReadHalf) (temp_name_num : Nat) :
    Fs × Except Error FilesystemStore :=
  let temp_full_path := to_full_path store.temp_path (natToHex temp_name_num)
  let fs1 := fsSet fs temp_full_path []
  match store.update_file fs1 temp_full_path digest reader with
  | (fs2, .error err) =>
    match fsRemoveFile fs2 temp_full_path with
    | .ok fs3 => (fs3, .error err)
    | .error e2 => (fs2, .error (err.merge e2))
  | (fs2, .ok store') => (fs2, .ok store')

/-- Embeds `FileEntry::read_file_part`: open the content file, seek to
`offset`, and take at most `length` bytes. -/
def FileEntry.read_file_part (entry : FileEntry) (fs : Fs)
    (offset length : Nat) : Except Error Bytes :=
  let full_content_path := to_full_path_from_digest entry.content_path entry.digest
  match fsGet fs full_content_path with
  | none => .error ⟨.internal, "Failed to open file in filesystem store"⟩
  | some contents => .ok ((contents.drop offset).take length)

/-- The chunks successively produced by the buffered read loop of
`get_part` (read up to the buffer size, send, repeat until EOF).  The
buffer size is positive in any constructed store (`new` replaces `0` by
the 32 KiB default); `max bufSize 1` makes that explicit. -/
def chunksOf (bufSize : Nat) : Bytes → List Bytes
  | [] => []
  | b :: bs =>
    ((b :: bs).take (max bufSize 1)) :: chunksOf bufSize ((b :: bs).drop (max bufSize 1))
termination_by l => l.length
decreasing_by
  simp only [List.length_drop, List.length_cons]
  have h1 : 1 ≤ max bufSize 1 := Nat.le_max_right _ _
  omega

/-- What `get_part` delivered to its writer half: the chunks sent, and
whether `send_eof` was reached. -/
structure WriterOutput where
  chunks : List Bytes
  eofSent : Bool
deriving DecidableEq, Repr

/-- The bytes a writer half received, chunk boundaries erased. -/
def WriterOutput.writtenBytes (w : WriterOutput) : Bytes := w.chunks.flatten

/-- Embeds `StoreTrait::get_part` for `FilesystemStore`: evicting-map lookup
(bumping recency), `NotFound` when absent; otherwise read
`[offset, offset+length)` of the content file (to EOF when `length` is
`None`, i.e. `usize::MAX` bytes) and stream it to the writer followed by
EOF. -/
def FilesystemStore.get_part (store : FilesystemStore) (fs : Fs)
    (digest : DigestInfo) (offset : Nat) (length : Option Nat) :
    FilesystemStore × Except Error WriterOutput :=
  match EvictingMap.get FileEntry.len store.evicting_map digest with
  | (none, m') =>
    (⟨store.temp_path, store.content_path, m', store.read_buffer_size⟩,
      .error ⟨.notFound, "not found in filesystem store"⟩)
  | (some entry, m') =>
    let store' : FilesystemStore :=
      ⟨store.temp_path, store.content_path, m', store.read_buffer_size⟩
    match entry.read_file_part fs offset (length.getD USIZE_MAX) with
    | .error e => (store', .error e)
    | .ok bytes => (store', .ok ⟨chunksOf store.read_buffer_size bytes, true⟩)

/-- Embeds `StoreTrait::has` for `FilesystemStore`: delegate to
`EvictingMap::size_for_key`; never fails. -/
def FilesystemStore.has (store : FilesystemStore) (digest : DigestInfo) :
    FilesystemStore × Except Error (Option Nat) :=
  let r := EvictingMap.size_for_key FileEntry.len store.evicting_map digest
  (⟨store.temp_path, store.content_path, r.2, store.read_buffer_size⟩, .ok r.1)

/-! ## Startup enumeration (add_files_to_cache / prune_temp_path) -/

/-- All-decimal-digit parse of a character list into a natural number. -/
def parseDigits : Nat → Option Nat → List Char → Option Nat
  | _, acc, [] => acc
  | base, acc, c :: cs =>
    if c.isDigit then
      parseDigits base (some ((acc.getD 0) * base + (c.toNat - 48))) cs
    else none

/-- Embeds `i64::from_str_radix(s, 10)`: optional sign, decimal digits,
failure outside the `i64` range. -/
def parseI64 (s : String) : Option Int :=
  let signed : Option Int :=
    match s.toList with
    | '-' :: rest => (parseDigits 10 none rest).map fun n => -(n : Int)
    | '+' :: rest => (parseDigits 10 none rest).map fun n => (n : Int)
    | cs => (parseDigits 10 none cs).map fun n => (n : Int)
  match signed with
  | none => none
  | some v => if -(2 ^ 63) ≤ v ∧ v ≤ 2 ^ 63 - 1 then some v else none

/-- Embeds `split_once('-')`: the text before the first `-` and everything
after it. -/
def splitOnceDash (s : String) : Option (String × String) :=
  match splitString '-' s with
  | [] => none
  | [_] => none
  | h :: rest => some (h, joinWith "-" rest)

/-- Embeds `make_digest` (inner fn of `add_files_to_cache`): parse a
content-directory filename `{hash}-{size}` into a `DigestInfo`. -/
def make_digest (file_name : String) : Except Error DigestInfo :=
  match splitOnceDash file_name with
  | none => .error ⟨.invalidArgument, "filename has no dash"⟩
  | some (hash, sizeStr) =>
    match parseI64 sizeStr with
    | none => .error ⟨.invalidArgument, "invalid size in filename"⟩
    | some size => DigestInfo.try_new hash size

/-- The `v as i32` cast applied by `process_entry` to
`time_since_anchor.as_secs()`: truncate the `u64` to its low 32 bits and
reinterpret as a signed 32-bit integer. -/
def u64AsI32 (n : Nat) : Int :=
  let m : Nat := n % 2 ^ 32
  if m < 2 ^ 31 then (m : Int) else (m : Int) - 2 ^ 32

/-- Embeds `process_entry` (inner fn of `add_files_to_cache`): parse the
filename, build a `FileEntry`, fail if the file's atime is newer than the
anchor instant, else insert via `insert_with_time` with age
`(anchor − atime).as_secs() as i32`. -/
def process_entry (evicting_map : EvictingMap FileEntry) (file_name : String)
    (atime : Nat) (file_size : Nat) (anchor_time : Nat)
    (temp_path content_path : String) : Except Error (EvictingMap FileEntry) :=
  match make_digest file_name with
  | .error e => .error e
  | .ok digest =>
    let file_entry : FileEntry := ⟨digest, file_size, temp_path, content_path⟩
    if atime ≤ anchor_time then
      .ok (EvictingMap.insert_with_time FileEntry.len evicting_map digest
        file_entry (u64AsI32 (anchor_time - atime))).2.2
    else .error ⟨.invalidArgument, "File access time newer than now"⟩

/-- One entry of the `content_path` directory listing as the startup scan
sees it: filename, access time in whole seconds (absent models a
filesystem without atime support), and byte length. -/
structure DirEntry where
  file_name : String
  atime : Option Nat
  file_size : Nat
deriving DecidableEq, Repr

/-- The first phase of `add_files_to_cache`: collect (name, atime, length)
for every directory entry.  A missing atime makes the source `panic!`,
modelled as a loud startup failure. -/
def collectFileInfos : List DirEntry → Except Error (List (String × Nat × Nat))
  | [] => .ok []
  | e :: rest =>
    match e.atime with
    | none =>
      .error ⟨.internal, "It appears this filesystem does not support access time."⟩
    | some t =>
      match collectFileInfos rest with
      | .error er => .error er
      | .ok l => .ok ((e.file_name, t, e.file_size) :: l)

/-- The processing loop of `add_files_to_cache`: run `process_entry` on each
(already sorted) file info; on failure log and delete the offending file,
ignoring the deletion result, and continue. -/
def processAll (anchor_time : Nat) (temp_path content_path : String) :
    EvictingMap FileEntry → List (String × Nat × Nat) → Fs →
    EvictingMap FileEntry × Fs
  | m, [], fs => (m, fs)
  | m, (file_name, atime, file_size) :: rest, fs =>
    match process_entry m file_name atime file_size anchor_time
        temp_path content_path with
    | .ok m' => processAll anchor_time temp_path content_path m' rest fs
    | .error _ =>
      processAll anchor_time temp_path content_path m rest
        (fsRemove fs (to_full_path content_path file_name))

/-- Embeds `add_files_to_cache`: enumerate `content_path` (failing loudly
when atime is unavailable), sort the entries by atime ascending with a
stable sort (Rust's `sort_by`), and process each in order. -/
def add_files_to_cache (evicting_map : EvictingMap FileEntry)
    (anchor_time : Nat) (temp_path content_path : String)
    (dirEntries : List DirEntry) (fs : Fs) :
    Except Error (EvictingMap FileEntry × Fs) :=
  match collectFileInfos dirEntries with
  | .error e => .error e
  | .ok file_infos =>
    let sorted := List.insertionSort (fun a b => a.2.1 ≤ b.2.1) file_infos
    .ok (processAll anchor_time temp_path content_path evicting_map sorted fs)

/-! ## FS guard (src/util/fs.rs) -/

/-- The initial permit count of `OPEN_FILE_SEMAPHORE`. -/
def DEFAULT_OPEN_FILE_PERMITS : Nat := 10

/-- Embeds `fs::set_open_file_limit` as a function on the semaphore's
permit count: below the default it only logs an error and leaves the
count unchanged; otherwise it adds `limit − DEFAULT_OPEN_FILE_PERMITS`
permits. -/
def set_open_file_limit (available_permits : Nat) (limit : Nat) : Nat :=
  if limit < DEFAULT_OPEN_FILE_PERMITS then available_permits
  else available_permits + (limit - DEFAULT_OPEN_FILE_PERMITS)

/-! ## Resource-name parsing

Modelled from the spec (§4.3, §6): `resource_info.rs` is not in the
sources, only its tests are.  Grammar:
`[instance/] (blobs | uploads/{uuid}/blobs | compressed-blobs/{compressor}
| uploads/{uuid}/compressed-blobs/{compressor}) [/{digest-fn}]
/{hash}/{size} [/optional_metadata...]`. -/

/-- The record produced by the resource-name parser. -/
structure ResourceInfo where
  instance_name : String
  uuid : Option String
  compressor : Option String
  digest_function : Option String
  hash : String
  expected_size : Int
  optional_metadata : Option String
deriving DecidableEq, Repr

/-- The digest-function names the parser recognizes for the optional
`{digest-fn}` segment (the Remote Execution API's digest functions). -/
def knownDigestFunctions : List String :=
  ["sha256", "sha1", "md5", "vso", "sha384", "sha512", "murmur3", "blake3"]

/-- Parse the size string of a resource name: a non-negative decimal
integer in `i64` range (spec: "expected_size does not parse as a
non-negative integer" is a failure). -/
def parseSizeNonneg (s : String) : Option Int :=
  match parseDigits 10 none s.toList with
  | none => none
  | some n => if (n : Int) ≤ 2 ^ 63 - 1 then some (n : Int) else none

/-- Parse the `{hash}/{size}[/metadata...]` tail of a resource name. -/
def parseHashSize (inst : String) (uuid compressor digest_function : Option String) :
    List String → Option ResourceInfo
  | hash :: sizeStr :: rest =>
    match parseSizeNonneg sizeStr with
    | none => none
    | some size =>
      let md := if rest.isEmpty then none else some (joinWith "/" rest)
      some ⟨inst, uuid, compressor, digest_function, hash, size, md⟩
  | _ => none

/-- Parse the optional `{digest-fn}` segment followed by the hash/size tail. -/
def parseMaybeDigestFn (inst : String) (uuid compressor : Option String) :
    List String → Option ResourceInfo
  | [] => none
  | fn :: rest =>
    if knownDigestFunctions.contains fn then
      parseHashSize inst uuid compressor (some fn) rest
    else
      parseHashSize inst uuid compressor none (fn :: rest)

/-- Parse the part of a resource name after the instance prefix: one of the
four `blobs` / `uploads` / `compressed-blobs` alternatives. -/
def parseAfterInstance (inst : String) : List String → Option ResourceInfo
  | "blobs" :: rest => parseMaybeDigestFn inst none none rest
  | "compressed-blobs" :: comp :: rest =>
    parseMaybeDigestFn inst none (some comp) rest
  | "uploads" :: uuid :: "blobs" :: rest =>
    parseMaybeDigestFn inst (some uuid) none rest
  | "uploads" :: uuid :: "compressed-blobs" :: comp :: rest =>
    parseMaybeDigestFn inst (some uuid) (some comp) rest
  | _ => none

/-- Try successively longer instance-name prefixes (shortest first, so the
instance is everything before the first parseable keyword). -/
def parseWithInstance : List String → List String → Option ResourceInfo
  | instAcc, segs =>
    match parseAfterInstance (joinWith "/" instAcc.reverse) segs with
    | some r => some r
    | none =>
      match segs with
      | [] => none
      | s :: rest => parseWithInstance (s :: instAcc) rest

/-- Modelled from the spec: `ResourceInfo::new` (crate `resource_info`, not
in the sources) — split the resource name on `/` and parse it against the
grammar of §4.3/§6, with the instance name (possibly empty, possibly
containing `/`) as the prefix before the first grammar keyword. -/
def ResourceInfo.new (resource_name : String) : Option ResourceInfo :=
  parseWithInstance [] (splitString '/' resource_name)

/-! ## AC adapter (src/cas/grpc_service/ac_server.rs) -/

/-- A digest as it appears on the wire, before `DigestInfo` validation. -/
structure ProtoDigest where
  hash : String
  size_bytes : Int
deriving DecidableEq, Repr

/-- The `TryInto<DigestInfo>` conversion applied to the request's digest. -/
def digestFromProto (d : ProtoDigest) : Except Error DigestInfo :=
  DigestInfo.try_new d.hash d.size_bytes

/-- The externally defined `ActionResult` proto message, representative
fields only; the adapter treats it opaquely. -/
structure ActionResult where
  exit_code : Int
  stdout_raw : Bytes
deriving DecidableEq, Repr

/-- An `UpdateActionResultRequest`: instance name plus optional digest and
action result, as on the wire. -/
structure UpdateActionResultRequest where
  instance_name : String
  action_digest : Option ProtoDigest
  action_result : Option ActionResult
deriving DecidableEq, Repr

/-- The backing store as the AC adapter sees it: the `GrpcStore` downcast
flag, the (spec-modelled) `update_oneshot` convenience operation, and the
upstream forwarding used on the passthrough path. -/
structure AcStore where
  is_grpc_store : Bool
  update_oneshot : DigestInfo → Bytes → Except Error Unit
  forward_update_action_result :
    UpdateActionResultRequest → Except Error ActionResult

/-- The AC adapter: a map from instance name to its backing store. -/
structure AcServer where
  stores : List (String × AcStore)

/-- Embeds `AcServer::inner_update_action_result`: look up the instance's
store; forward verbatim if it is the `GrpcStore` passthrough; otherwise
decode the digest, serialize the given `action_result` with `encode`,
store it via `update_oneshot`, and return the input `action_result`
unchanged. -/
def AcServer.inner_update_action_result (server : AcServer)
    (encode : ActionResult → Bytes) (req : UpdateActionResultRequest) :
    Except Error ActionResult :=
  match (server.stores.find? fun p => p.1 == req.instance_name).map Prod.snd with
  | none => .error ⟨.invalidArgument, "instance_name not configured"⟩
  | some store =>
    if store.is_grpc_store then store.forward_update_action_result req
    else
      match req.action_digest with
      | none => .error ⟨.invalidArgument, "Action digest was not set in message"⟩
      | some pd =>
        match digestFromProto pd with
        | .error e => .error e
        | .ok digest =>
          match req.action_result with
          | none => .error ⟨.invalidArgument, "Action result was not set in message"⟩
          | some action_result =>
            let store_data := encode action_result
            match store.update_oneshot digest store_data with
            | .error e => .error e
            | .ok _ => .ok action_result

/-! ## Supporting lemmas -/

theorem fsAppend_fsSet (fs : Fs) (p : String) (b0 c : Bytes) :
    fsAppend (fsSet fs p b0) p c = fsSet fs p (b0 ++ c) := by
  simp [fsAppend, fsGet_fsSet_self, fsSet_fsSet]

theorem recvLoop_ok (p : String) (cs : List Bytes) :
    (∀ c ∈ cs, c ≠ []) → ∀ (fs : Fs) (b0 : Bytes) (n : Nat),
    recvLoop (fsSet fs p b0) p cs .eof n
      = (fsSet fs p (b0 ++ cs.flatten), .ok (n + cs.flatten.length)) := by
  induction cs with
  | nil => intro _ fs b0 n; simp [recvLoop]
  | cons c rest ih =>
    intro hcs fs b0 n
    have hc : c ≠ [] := hcs c (by simp)
    have hlen : (c.length == 0) = false := by
      simp only [beq_eq_false_iff_ne, ne_eq]
      exact fun h => hc (List.eq_nil_of_length_eq_zero h)
    rw [recvLoop, hlen]
    simp only [Bool.false_eq_true, if_false, fsAppend_fsSet]
    rw [ih (fun x hx => hcs x (by simp [hx])) fs (b0 ++ c) (n + c.length)]
    simp [List.append_assoc, Nat.add_assoc]

theorem recvLoop_fs_shape (p : String) (cs : List Bytes) :
    ∀ (oc : ReaderOutcome) (fs : Fs) (b0 : Bytes) (n : Nat),
    ∃ b1, (recvLoop (fsSet fs p b0) p cs oc n).1 = fsSet fs p b1 := by
  induction cs with
  | nil => intro oc fs b0 n; cases oc <;> exact ⟨b0, rfl⟩
  | cons c rest ih =>
    intro oc fs b0 n
    rw [recvLoop]
    by_cases h : (c.length == 0) = true
    · rw [h]; exact ⟨b0, rfl⟩
    · rw [eq_false_of_ne_true h]
      simp only [Bool.false_eq_true, if_false, fsAppend_fsSet]
      exact ih oc fs (b0 ++ c) (n + c.length)

theorem flatten_chunksOf (bufSize : Nat) (l : Bytes) :
    (chunksOf bufSize l).flatten = l := by
  have H : ∀ (n : Nat) (l : Bytes), l.length ≤ n → (chunksOf bufSize l).flatten = l := by
    intro n
    induction n with
    | zero =>
      intro l hl
      have : l = [] := List.eq_nil_of_length_eq_zero (Nat.le_zero.mp hl)
      subst this
      simp [chunksOf]
    | succ n ih =>
      intro l hl
      match l with
      | [] => simp [chunksOf]
      | b :: bs =>
        rw [chunksOf]
        simp only [List.flatten_cons]
        rw [ih ((b :: bs).drop (max bufSize 1)) ?_]
        · exact List.take_append_drop _ _
        · have h1 : 1 ≤ max bufSize 1 := Nat.le_max_right _ _
          simp only [List.length_drop, List.length_cons]
          simp only [List.length_cons] at hl
          omega
  exact H l.length l le_rfl

theorem evictLoop_defaultPolicy {V : Type} (len : V → Nat) (es : List (EMEntry V)) :
    EvictingMap.evictLoop len EvictionPolicy.defaultPolicy es = (es, []) := by
  cases es with
  | nil => rfl
  | cons e rest => simp [EvictingMap.evictLoop, EvictingMap.limitsOk, EvictionPolicy.defaultPolicy]

theorem find?_removeKey {V : Type} (es : List (EMEntry V)) (k : DigestInfo) :
    (EvictingMap.removeKey es k).find? (fun e => e.key == k) = none := by
  induction es with
  | nil => simp [EvictingMap.removeKey]
  | cons e rest ih =>
    by_cases h : e.key = k
    · simpa [EvictingMap.removeKey, List.filter_cons, h] using ih
    · simpa [EvictingMap.removeKey, List.filter_cons, h, List.find?_cons] using ih

theorem findEntry_append_last {V : Type} (pol : EvictionPolicy)
    (es : List (EMEntry V)) (k : DigestInfo) (v : V) (a : Int) :
    EvictingMap.findEntry
      (⟨pol, EvictingMap.removeKey es k ++ [⟨k, v, a⟩]⟩ : EvictingMap V) k
      = some ⟨k, v, a⟩ := by
  simp [EvictingMap.findEntry, List.find?_append, find?_removeKey]

theorem update_file_ok (store : FilesystemStore) (fs : Fs) (p : String)
    (d : DigestInfo) (chunks : List Bytes)
    (hpol : store.evicting_map.policy = EvictionPolicy.defaultPolicy)
    (hchunks : ∀ c ∈ chunks, c ≠ []) :
    store.update_file (fsSet fs p []) p d ⟨chunks, .eof⟩ =
      (fsSet (fsRemove (fsSet fs p chunks.flatten) p)
         (to_full_path_from_digest store.content_path d) chunks.flatten,
       .ok ⟨store.temp_path, store.content_path,
         ⟨store.evicting_map.policy,
          EvictingMap.removeKey store.evicting_map.entries d ++
            [⟨d, ⟨d, chunks.flatten.length, store.temp_path, store.content_path⟩, 0⟩]⟩,
         store.read_buffer_size⟩) := by
  rw [FilesystemStore.update_file]
  rw [recvLoop_ok p chunks hchunks fs [] 0]
  simp only [List.nil_append, Nat.zero_add]
  rw [fsRename]
  rw [fsGet_fsSet_self]
  simp only [EvictingMap.insert, EvictingMap.insert_with_time, hpol,
    evictLoop_defaultPolicy, List.foldl_nil]

theorem update_ok (store : FilesystemStore) (fs : Fs) (d : DigestInfo)
    (chunks : List Bytes) (tempNum : Nat)
    (hpol : store.evicting_map.policy = EvictionPolicy.defaultPolicy)
    (hchunks : ∀ c ∈ chunks, c ≠ []) :
    store.update fs d ⟨chunks, .eof⟩ tempNum =
      (fsSet (fsRemove (fsSet fs (to_full_path store.temp_path (natToHex tempNum))
           chunks.flatten) (to_full_path store.temp_path (natToHex tempNum)))
         (to_full_path_from_digest store.content_path d) chunks.flatten,
       .ok ⟨store.temp_path, store.content_path,
         ⟨store.evicting_map.policy,
          EvictingMap.removeKey store.evicting_map.entries d ++
            [⟨d, ⟨d, chunks.flatten.length, store.temp_path, store.content_path⟩, 0⟩]⟩,
         store.read_buffer_size⟩) := by
  rw [FilesystemStore.update]
  rw [update_file_ok store fs _ d chunks hpol hchunks]

theorem update_file_err_fs (store : FilesystemStore) (fs : Fs) (p : String)
    (d : DigestInfo) (reader : DropCloserReadHalf) (b0 : Bytes) (fs2 : Fs) (e : Error)
    (h : store.update_file (fsSet fs p b0) p d reader = (fs2, .error e)) :
    ∃ b1, fs2 = fsSet fs p b1 := by
  rw [FilesystemStore.update_file] at h
  obtain ⟨b1, hb1⟩ := recvLoop_fs_shape p reader.chunks reader.outcome fs b0 0
  rcases hrl : recvLoop (fsSet fs p b0) p reader.chunks reader.outcome 0 with ⟨fs1, res1⟩
  rw [hrl] at h hb1
  simp only at hb1
  subst hb1
  cases res1 with
  | error e1 =>
    simp only [Prod.mk.injEq, Except.error.injEq] at h
    exact ⟨b1, h.1.symm⟩
  | ok n =>
    simp only [fsRename, fsGet_fsSet_self] at h
    simp at h

/-- The state predicate behind the "stored blob" wording of the spec: the
evicting map indexes digest `d` through a `FileEntry` whose paths agree
with the store's, and the content file for `d` holds the bytes `b`. -/
def storedAt (store : FilesystemStore) (fs : Fs) (d : DigestInfo) (b : Bytes) : Prop :=
  ∃ en : EMEntry FileEntry,
    EvictingMap.findEntry store.evicting_map d = some en ∧
    en.value.digest = d ∧
    en.value.content_path = store.content_path ∧
    fsGet fs (to_full_path_from_digest store.content_path d) = some b

/-- A 64-character lowercase-hex hash usable in concrete examples (the
width `DigestInfo::try_new` accepts). -/
def h64str : String := String.mk (List.replicate 64 'a')

/-! ## Claims -/

/-- C1: for every blob `b` and digest `d`, after
`FilesystemStore::update(d, reader_of(b))` returns success, `has(d)`
returns `Some(|b|)` and `get_part(d, w, 0, None)` writes exactly the bytes
of `b` to the writer followed by EOF.  (The reader delivers `b` as any
sequence of non-empty chunks followed by EOF; the store's eviction policy
is the default, unlimited one.) -/
theorem C1_round_trip (store : FilesystemStore) (fs : Fs) (d : DigestInfo)
    (chunks : List Bytes) (tempNum : Nat)
    (hpol : store.evicting_map.policy = EvictionPolicy.defaultPolicy)
    (hchunks : ∀ c ∈ chunks, c ≠ [])
    (hlen : chunks.flatten.length ≤ USIZE_MAX) :
    ∃ store' fs',
      store.update fs d ⟨chunks, .eof⟩ tempNum = (fs', .ok store') ∧
      (store'.has d).2 = .ok (some chunks.flatten.length) ∧
      ∃ w, (store'.get_part fs' d 0 none).2 = .ok w ∧
        w.writtenBytes = chunks.flatten ∧ w.eofSent = true := by
  refine ⟨_, _, update_ok store fs d chunks tempNum hpol hchunks, ?_, ?_⟩
  · simp only [FilesystemStore.has, EvictingMap.size_for_key]
    rw [findEntry_append_last]
    rfl
  · simp only [FilesystemStore.get_part, EvictingMap.get]
    rw [findEntry_append_last]
    simp only [FileEntry.read_file_part]
    rw [fsGet_fsSet_self]
    simp only [Option.getD_none, List.drop_zero]
    rw [List.take_of_length_le hlen]
    exact ⟨_, rfl, flatten_chunksOf _ _, rfl⟩

/-- C1 witness: a concrete two-chunk upload of the blob `[1, 4, 9]` round
trips through a fresh store. -/
theorem C1_round_trip_witness :
    ∃ store' fs',
      FilesystemStore.update ⟨"tmp", "content", ⟨EvictionPolicy.defaultPolicy, []⟩, 4⟩
          [] ⟨"aa", 2⟩ ⟨[[1, 4], [9]], .eof⟩ 1 = (fs', .ok store') ∧
      (store'.has ⟨"aa", 2⟩).2 = .ok (some ([[1, 4], [9]] : List Bytes).flatten.length) ∧
      ∃ w, (store'.get_part fs' ⟨"aa", 2⟩ 0 none).2 = .ok w ∧
        w.writtenBytes = ([[1, 4], [9]] : List Bytes).flatten ∧ w.eofSent = true :=
  C1_round_trip ⟨"tmp", "content", ⟨EvictionPolicy.defaultPolicy, []⟩, 4⟩
    [] ⟨"aa", 2⟩ [[1, 4], [9]] 1 rfl (by decide) (by decide)

/-- C2: if `FilesystemStore::update(d, ...)` returns an error, no file named
`{hash}-{size}` for `d` appears in `content_path` as a result of that
call, and the temporary file created for the write is unlinked before the
error is propagated. -/
theorem C2_atomic_failure (store : FilesystemStore) (fs : Fs) (d : DigestInfo)
    (reader : DropCloserReadHalf) (tempNum : Nat) (fs' : Fs) (e : Error)
    (hne : to_full_path_from_digest store.content_path d
        ≠ to_full_path store.temp_path (natToHex tempNum))
    (hrun : store.update fs d reader tempNum = (fs', .error e)) :
    fsGet fs' (to_full_path_from_digest store.content_path d)
        = fsGet fs (to_full_path_from_digest store.content_path d) ∧
    fsGet fs' (to_full_path store.temp_path (natToHex tempNum)) = none := by
  rw [FilesystemStore.update] at hrun
  rcases hupd : store.update_file
      (fsSet fs (to_full_path store.temp_path (natToHex tempNum)) [])
      (to_full_path store.temp_path (natToHex tempNum)) d reader with ⟨fs2, res⟩
  rw [hupd] at hrun
  cases res with
  | ok st' => simp at hrun
  | error err =>
    obtain ⟨b1, hb1⟩ := update_file_err_fs store fs _ d reader [] fs2 err hupd
    subst hb1
    simp only [fsRemoveFile, fsGet_fsSet_self] at hrun
    simp only [Prod.mk.injEq, Except.error.injEq] at hrun
    rw [← hrun.1]
    constructor
    · rw [fsGet_fsRemove_ne _ _ _ hne, fsGet_fsSet_ne _ _ _ _ hne]
    · exact fsGet_fsRemove_self _ _

/-- C2 witness: a reader that errors after one chunk leaves neither the
final content file nor the temp file behind. -/
theorem C2_atomic_failure_witness :
    fsGet
        (FilesystemStore.update ⟨"tmp", "content", ⟨EvictionPolicy.defaultPolicy, []⟩, 4⟩
          [("pre", [7])] ⟨"aa", 2⟩ ⟨[[1]], .err⟩ 2).1
        (to_full_path_from_digest "content" ⟨"aa", 2⟩)
      = fsGet [("pre", [7])] (to_full_path_from_digest "content" ⟨"aa", 2⟩) ∧
    fsGet
        (FilesystemStore.update ⟨"tmp", "content", ⟨EvictionPolicy.defaultPolicy, []⟩, 4⟩
          [("pre", [7])] ⟨"aa", 2⟩ ⟨[[1]], .err⟩ 2).1
        (to_full_path "tmp" (natToHex 2)) = none :=
  C2_atomic_failure ⟨"tmp", "content", ⟨EvictionPolicy.defaultPolicy, []⟩, 4⟩
    [("pre", [7])] ⟨"aa", 2⟩ ⟨[[1]], .err⟩ 2 _
    ⟨.internal, "Failed to receive data in filesystem store"⟩ (by decide) rfl

/-- C3: for every stored blob `b` under digest `d` and all offsets and
lengths, `get_part(d, w, off, Some(len))` writes exactly
`b[off .. min(off+len, |b|)]` (i.e. `(b.drop off).take len`) to the writer
then EOF; an offset at or beyond `|b|` yields zero data bytes followed by
EOF. -/
theorem C3_partial_read (store : FilesystemStore) (fs : Fs) (d : DigestInfo)
    (b : Bytes) (off len : Nat) (h : storedAt store fs d b) :
    ∃ w, (store.get_part fs d off (some len)).2 = .ok w ∧
      w.writtenBytes = (b.drop off).take len ∧
      w.eofSent = true ∧
      (b.length ≤ off → w.writtenBytes = []) := by
  obtain ⟨en, hfind, hdig, hpath, hfile⟩ := h
  simp only [FilesystemStore.get_part, EvictingMap.get, hfind]
  simp only [FileEntry.read_file_part, hdig, hpath, hfile]
  refine ⟨_, rfl, ?_, rfl, ?_⟩
  · simp only [WriterOutput.writtenBytes, Option.getD_some]
    exact flatten_chunksOf _ _
  · intro hoff
    simp only [WriterOutput.writtenBytes, Option.getD_some]
    rw [flatten_chunksOf, List.drop_eq_nil_of_le hoff, List.take_nil]

/-- C3 witness: a stored three-byte blob, read with offset 1 and length 5,
yields its final two bytes; offset 10 yields nothing. -/
theorem C3_partial_read_witness :
    (∃ w, (FilesystemStore.get_part
        ⟨"tmp", "content",
          ⟨EvictionPolicy.defaultPolicy,
            [⟨⟨"aa", 2⟩, ⟨⟨"aa", 2⟩, 3, "tmp", "content"⟩, 0⟩]⟩, 4⟩
        [("content/aa-2", [1, 4, 9])] ⟨"aa", 2⟩ 1 (some 5)).2 = .ok w ∧
      w.writtenBytes = (([1, 4, 9] : Bytes).drop 1).take 5 ∧
      w.eofSent = true ∧
      (([1, 4, 9] : Bytes).length ≤ 1 → w.writtenBytes = [])) :=
  C3_partial_read
    ⟨"tmp", "content",
      ⟨EvictionPolicy.defaultPolicy,
        [⟨⟨"aa", 2⟩, ⟨⟨"aa", 2⟩, 3, "tmp", "content"⟩, 0⟩]⟩, 4⟩
    [("content/aa-2", [1, 4, 9])] ⟨"aa", 2⟩ [1, 4, 9] 1 5
    ⟨⟨⟨"aa", 2⟩, ⟨⟨"aa", 2⟩, 3, "tmp", "content"⟩, 0⟩, by decide, rfl, rfl, by decide⟩

/-- C6: for every digest `d` not present in the store's index, `get_part`
fails with a `NotFound` error while `has(d)` returns success with `None`. -/
theorem C6_missing_digest (store : FilesystemStore) (fs : Fs) (d : DigestInfo)
    (off : Nat) (len : Option Nat)
    (h : EvictingMap.findEntry store.evicting_map d = none) :
    (∃ e, (store.get_part fs d off len).2 = .error e ∧ e.code = .notFound) ∧
    (store.has d).2 = .ok none := by
  constructor
  · simp only [FilesystemStore.get_part, EvictingMap.get, h]
    exact ⟨_, rfl, rfl⟩
  · simp only [FilesystemStore.has, EvictingMap.size_for_key, h]

/-- C6 witness: an empty store: `get_part` of an absent digest is
`NotFound`, `has` is `Ok(None)`. -/
theorem C6_missing_digest_witness :
    (∃ e, (FilesystemStore.get_part
        ⟨"tmp", "content", ⟨EvictionPolicy.defaultPolicy, []⟩, 4⟩
        [] ⟨"aa", 2⟩ 0 none).2 = .error e ∧ e.code = .notFound) ∧
    (FilesystemStore.has
        ⟨"tmp", "content", ⟨EvictionPolicy.defaultPolicy, []⟩, 4⟩ ⟨"aa", 2⟩).2
      = .ok none :=
  C6_missing_digest ⟨"tmp", "content", ⟨EvictionPolicy.defaultPolicy, []⟩, 4⟩
    [] ⟨"aa", 2⟩ 0 none (by decide)

/-- C9: `FilesystemStore::update` records as the entry's length the number
of bytes actually received from the reader before EOF, not
`digest.size_bytes`: a successful `update(d, reader)` delivering `n` bytes
makes `has(d)` return `Some(n)` even when `n` differs from
`d.size_bytes` (no check relates the two). -/
theorem C9_measured_length (store : FilesystemStore) (fs : Fs) (d : DigestInfo)
    (chunks : List Bytes) (tempNum : Nat) (n : Nat)
    (hpol : store.evicting_map.policy = EvictionPolicy.defaultPolicy)
    (hchunks : ∀ c ∈ chunks, c ≠ [])
    (hn : n = chunks.flatten.length)
    (hneq : (n : Int) ≠ d.size_bytes) :
    ∃ store' fs',
      store.update fs d ⟨chunks, .eof⟩ tempNum = (fs', .ok store') ∧
      (store'.has d).2 = .ok (some n) := by
  subst hn
  refine ⟨_, _, update_ok store fs d chunks tempNum hpol hchunks, ?_⟩
  simp only [FilesystemStore.has, EvictingMap.size_for_key]
  rw [findEntry_append_last]
  rfl

/-- C9 witness: uploading 3 bytes under a digest claiming 999 bytes still
succeeds and `has` reports 3. -/
theorem C9_measured_length_witness :
    ∃ store' fs',
      FilesystemStore.update ⟨"tmp", "content", ⟨EvictionPolicy.defaultPolicy, []⟩, 4⟩
          [] ⟨"aa", 999⟩ ⟨[[1, 4], [9]], .eof⟩ 1 = (fs', .ok store') ∧
      (store'.has ⟨"aa", 999⟩).2 = .ok (some 3) :=
  C9_measured_length ⟨"tmp", "content", ⟨EvictionPolicy.defaultPolicy, []⟩, 4⟩
    [] ⟨"aa", 999⟩ [[1, 4], [9]] 1 3 rfl (by decide) (by decide) (by decide)

/-- C10: `set_open_file_limit(limit)` never lowers the semaphore: below the
default of 10 permits it leaves the count unchanged, and a single call
with `limit ≥ 10` made from the initial state of 10 permits makes the
total exactly `limit`. -/
theorem C10_open_file_limit (permits limit : Nat) :
    (limit < DEFAULT_OPEN_FILE_PERMITS → set_open_file_limit permits limit = permits) ∧
    (DEFAULT_OPEN_FILE_PERMITS ≤ limit →
      set_open_file_limit DEFAULT_OPEN_FILE_PERMITS limit = limit) := by
  constructor
  · intro h
    simp [set_open_file_limit, h]
  · intro h
    unfold set_open_file_limit
    rw [if_neg (Nat.not_lt.mpr h)]
    unfold DEFAULT_OPEN_FILE_PERMITS at h ⊢
    omega

/-- C10 witness: a limit of 5 leaves the 10 default permits; a limit of 42
from the default state yields exactly 42. -/
theorem C10_open_file_limit_witness :
    set_open_file_limit 10 5 = 10 ∧ set_open_file_limit 10 42 = 42 :=
  ⟨(C10_open_file_limit 10 5).1 (by decide), (C10_open_file_limit 10 42).2 (by decide)⟩

/-- C8: on `UpdateActionResult` for an instance whose backing store is not
the `GrpcStore` passthrough, the AC adapter serializes the given
`action_result`, stores it under `action_digest` via `update_oneshot`, and
on success returns to the caller exactly the `action_result` it received,
unchanged. -/
theorem C8_update_action_result (server : AcServer) (encode : ActionResult → Bytes)
    (req : UpdateActionResultRequest) (store : AcStore) (pd : ProtoDigest)
    (dg : DigestInfo) (ar : ActionResult)
    (hs : (server.stores.find? fun p => p.1 == req.instance_name).map Prod.snd
        = some store)
    (hg : store.is_grpc_store = false)
    (hd : req.action_digest = some pd)
    (hdg : digestFromProto pd = .ok dg)
    (har : req.action_result = some ar)
    (hus : store.update_oneshot dg (encode ar) = .ok ()) :
    server.inner_update_action_result encode req = .ok ar := by
  simp only [AcServer.inner_update_action_result, hs, hg, hd, hdg, har, hus]
  simp

/-- C8 witness: a concrete non-passthrough store returns the received
`ActionResult` unchanged after a successful `update_oneshot`. -/
theorem C8_update_action_result_witness :
    AcServer.inner_update_action_result
        ⟨[("main", ⟨false, fun _ _ => .ok (), fun _ => .error ⟨.internal, "upstream"⟩⟩)]⟩
        (fun ar => ar.stdout_raw)
        ⟨"main", some ⟨h64str, 3⟩, some ⟨0, [1, 2]⟩⟩
      = .ok ⟨0, [1, 2]⟩ :=
  C8_update_action_result
    ⟨[("main", ⟨false, fun _ _ => .ok (), fun _ => .error ⟨.internal, "upstream"⟩⟩)]⟩
    (fun ar => ar.stdout_raw) ⟨"main", some ⟨h64str, 3⟩, some ⟨0, [1, 2]⟩⟩
    ⟨false, fun _ _ => .ok (), fun _ => .error ⟨.internal, "upstream"⟩⟩
    ⟨h64str, 3⟩ ⟨h64str, 3⟩ ⟨0, [1, 2]⟩ rfl rfl rfl rfl rfl rfl

/-- C7: the resource-name parser allows an empty or slash-containing
instance name, a uuid exactly on upload paths, and slash-containing
trailing metadata: `blobs/{hash}/{size}` parses with empty instance and no
uuid, `a/b/c/blobs/{hash}/{size}` keeps the slashed instance,
`uploads/{uuid}/blobs/...` carries the uuid, and segments after `{size}`
are collected (slashes included) into `optional_metadata`. -/
theorem C7_resource_name_fields :
    ResourceInfo.new "blobs/HASH-HERE/12345"
        = some ⟨"", none, none, none, "HASH-HERE", 12345, none⟩ ∧
    ResourceInfo.new "some/slashed/instance/blobs/HASH-HERE/12345"
        = some ⟨"some/slashed/instance", none, none, none, "HASH-HERE", 12345, none⟩ ∧
    ResourceInfo.new "uploads/UUID-HERE/blobs/HASH-HERE/12345"
        = some ⟨"", some "UUID-HERE", none, none, "HASH-HERE", 12345, none⟩ ∧
    ResourceInfo.new "foo_bar/blobs/HASH-HERE/12345/this_is_some_metadata/with_slashes"
        = some ⟨"foo_bar", none, none, none, "HASH-HERE", 12345,
            some "this_is_some_metadata/with_slashes"⟩ := by
  refine ⟨?_, ?_, ?_, ?_⟩ <;> rfl

/-- C4 counterexample: a startup scan over a file named `garbage`, whose
name does not parse as `{hash}-{size}`, does NOT fail: `add_files_to_cache`
returns success, silently continuing after logging and deleting the file.
This refutes the claim that an unparseable filename causes startup to fail
loudly. -/
theorem C4_counterexample :
    make_digest "garbage" = .error ⟨.invalidArgument, "filename has no dash"⟩ ∧
    add_files_to_cache ⟨EvictionPolicy.defaultPolicy, []⟩ 100 "tmp" "content"
        [⟨"garbage", some 50, 5⟩] [("content/garbage", [1, 2])]
      = .ok (⟨EvictionPolicy.defaultPolicy, []⟩, []) := by
  constructor <;> rfl

/-- C4 amended: during startup enumeration, a file whose name does not
parse as `{hash}-{size}` is logged and deleted and startup continues past
it (it is never indexed); a filesystem that does not provide atime causes
startup to fail loudly. -/
theorem C4_unparseable_and_atime (m : EvictingMap FileEntry) (anchor : Nat)
    (tp cp name : String) (t size : Nat) (fs : Fs) (e : Error)
    (hparse : make_digest name = .error e)
    (name2 : String) (size2 : Nat) (rest : List DirEntry) :
    add_files_to_cache m anchor tp cp [⟨name, some t, size⟩] fs
        = .ok (m, fsRemove fs (to_full_path cp name)) ∧
    add_files_to_cache m anchor tp cp (⟨name2, none, size2⟩ :: rest) fs
        = .error ⟨.internal, "It appears this filesystem does not support access time."⟩ := by
  constructor
  · simp only [add_files_to_cache, collectFileInfos, List.insertionSort,
      List.orderedInsert, processAll, process_entry, hparse]
  · simp only [add_files_to_cache, collectFileInfos]

/-- C4 witness: the amended behavior at a concrete unparseable filename and
a concrete atime-less directory entry. -/
theorem C4_unparseable_and_atime_witness :
    add_files_to_cache ⟨EvictionPolicy.defaultPolicy, []⟩ 7 "tmp" "content"
        [⟨"garbage", some 3, 5⟩] [("content/garbage", [1])]
      = .ok (⟨EvictionPolicy.defaultPolicy, []⟩,
          fsRemove [("content/garbage", [1])] (to_full_path "content" "garbage")) ∧
    add_files_to_cache ⟨EvictionPolicy.defaultPolicy, []⟩ 7 "tmp" "content"
        [⟨"x", none, 1⟩] [("content/garbage", [1])]
      = .error ⟨.internal, "It appears this filesystem does not support access time."⟩ :=
  ⟨(C4_unparseable_and_atime ⟨EvictionPolicy.defaultPolicy, []⟩ 7 "tmp" "content"
      "garbage" 3 5 [("content/garbage", [1])] _ rfl "x" 1 []).1,
   (C4_unparseable_and_atime ⟨EvictionPolicy.defaultPolicy, []⟩ 7 "tmp" "content"
      "garbage" 3 5 [("content/garbage", [1])] _ rfl "x" 1 []).2⟩

/-- C5 counterexample: a content file whose atime lies `2^31` seconds before
the anchor instant is inserted with age `-2^31`, not `T0 − atime = 2^31`:
the `as i32` cast in `process_entry` wraps the age.  This refutes the claim
that the inserted age always equals `T0 − atime` in whole seconds. -/
theorem C5_counterexample :
    add_files_to_cache ⟨EvictionPolicy.defaultPolicy, []⟩ (2 ^ 31) "tmp" "content"
        [⟨h64str ++ "-5", some 0, 5⟩] []
      = .ok (⟨EvictionPolicy.defaultPolicy,
          [⟨⟨h64str, 5⟩, ⟨⟨h64str, 5⟩, 5, "tmp", "content"⟩, -(2 ^ 31)⟩]⟩, []) ∧
    (-(2 ^ 31) : Int) ≠ (((2 ^ 31 : Nat) - (0 : Nat) : Nat) : Int) := by
  constructor
  · rfl
  · decide

/-- C5 amended: the enumerated entries are processed sorted by atime
ascending (oldest first); an entry with parseable name and atime `≤ T0` is
inserted via `insert_with_time` with age `(T0 − atime).as_secs() as i32` —
equal to `T0 − atime` in whole seconds whenever that difference is below
`2^31` seconds, wrapping otherwise; an entry whose atime is newer than `T0`
is not inserted and its file is deleted. -/
theorem C5_startup_insertion (m : EvictingMap FileEntry) (anchor : Nat)
    (tp cp name : String) (atime size : Nat) (fs : Fs) (dg : DigestInfo)
    (infos : List (String × Nat × Nat)) :
    List.Pairwise (fun a b => a.2.1 ≤ b.2.1)
        (List.insertionSort (fun a b => a.2.1 ≤ b.2.1) infos) ∧
    (make_digest name = .ok dg → atime ≤ anchor →
      add_files_to_cache m anchor tp cp [⟨name, some atime, size⟩] fs
        = .ok ((EvictingMap.insert_with_time FileEntry.len m dg
            ⟨dg, size, tp, cp⟩ (u64AsI32 (anchor - atime))).2.2, fs)) ∧
    (anchor < atime →
      add_files_to_cache m anchor tp cp [⟨name, some atime, size⟩] fs
        = .ok (m, fsRemove fs (to_full_path cp name))) ∧
    (anchor - atime < 2 ^ 31 →
      u64AsI32 (anchor - atime) = ((anchor - atime : Nat) : Int)) := by
  refine ⟨?_, ?_, ?_, ?_⟩
  · letI : IsTotal (String × Nat × Nat) (fun a b => a.2.1 ≤ b.2.1) :=
      ⟨fun a b => Nat.le_total a.2.1 b.2.1⟩
    letI : IsTrans (String × Nat × Nat) (fun a b => a.2.1 ≤ b.2.1) :=
      ⟨fun _ _ _ hab hbc => Nat.le_trans hab hbc⟩
    exact List.sorted_insertionSort _ infos
  · intro hdg hat
    simp only [add_files_to_cache, collectFileInfos, List.insertionSort,
      List.orderedInsert, processAll, process_entry, hdg, if_pos hat]
  · intro hat
    simp only [add_files_to_cache, collectFileInfos, List.insertionSort,
      List.orderedInsert, processAll, process_entry]
    cases hmk : make_digest name with
    | error e => rfl
    | ok dg2 => simp only [if_neg (Nat.not_le.mpr hat)]
  · intro h
    unfold u64AsI32
    have h32 : anchor - atime < 2 ^ 32 := lt_trans h (by norm_num)
    rw [Nat.mod_eq_of_lt h32]
    simp only [if_pos]
    omega

/-- C5 witness: concrete startup insertions — an old entry inserted with
the truncated-cast age (equal to the difference at small magnitudes), a
too-new entry deleted, and a concretely sorted enumeration order. -/
theorem C5_startup_insertion_witness :
    List.Pairwise (fun a b => a.2.1 ≤ b.2.1)
        (List.insertionSort (fun a b => a.2.1 ≤ b.2.1)
          [(("a" : String), (2 : Nat), (0 : Nat)), ("b", 1, 0)]) ∧
    add_files_to_cache ⟨EvictionPolicy.defaultPolicy, []⟩ 100 "tmp" "content"
        [⟨h64str ++ "-5", some 40, 5⟩] []
      = .ok ((EvictingMap.insert_with_time FileEntry.len
          ⟨EvictionPolicy.defaultPolicy, []⟩ ⟨h64str, 5⟩
          ⟨⟨h64str, 5⟩, 5, "tmp", "content"⟩ (u64AsI32 (100 - 40))).2.2, []) ∧
    add_files_to_cache ⟨EvictionPolicy.defaultPolicy, []⟩ 100 "tmp" "content"
        [⟨h64str ++ "-5", some 200, 5⟩] []
      = .ok (⟨EvictionPolicy.defaultPolicy, []⟩,
          fsRemove [] (to_full_path "content" (h64str ++ "-5"))) ∧
    u64AsI32 (100 - 40) = ((100 - 40 : Nat) : Int) :=
  ⟨(C5_startup_insertion ⟨EvictionPolicy.defaultPolicy, []⟩ 100 "tmp" "content"
      (h64str ++ "-5") 40 5 [] ⟨h64str, 5⟩ [("a", 2, 0), ("b", 1, 0)]).1,
   (C5_startup_insertion ⟨EvictionPolicy.defaultPolicy, []⟩ 100 "tmp" "content"
      (h64str ++ "-5") 40 5 [] ⟨h64str, 5⟩ [("a", 2, 0), ("b", 1, 0)]).2.1
      rfl (by decide),
   (C5_startup_insertion ⟨EvictionPolicy.defaultPolicy, []⟩ 100 "tmp" "content"
      (h64str ++ "-5") 200 5 [] ⟨h64str, 5⟩ [("a", 2, 0), ("b", 1, 0)]).2.2.1
      (by decide),
   (C5_startup_insertion ⟨EvictionPolicy.defaultPolicy, []⟩ 100 "tmp" "content"
      (h64str ++ "-5") 40 5 [] ⟨h64str, 5⟩ [("a", 2, 0), ("b", 1, 0)]).2.2.2
      (by decide)⟩

end RustCas
